import Mathlib

/-! ToDo: state synchronisation and reconciliation.

A shallow embedding of the core of the todo-list editor:

* `src/services.js`: the remote sync adapter (`fetchTodos`, `updateTodo`,
  `createTodo`, `deleteTodo`) and the pure `reorderTodos`;
* `src/main.js`: the reconciliation steps the event handlers apply to
  `appState.todos` (the `map` of the checkbox and blur handlers, the `filter`
  of the delete handler, the `push` of the creation form);
* `src/dom.js`: `moveTodoElement`, the view-side counterpart of `reorderTodos`.

Conventions of the embedding.

* A JavaScript array is a `List`.
* A todo of the list is the record `Todo`; its `id` is an integer-valued
  JavaScript number, embedded as the `Int` it denotes.
* A number `parseInt` can return is a `JsNum`: `NaN`, an infinity, or an
  integer-valued double, embedded as the `Int` it denotes.
* A promise is an `Except Err _`: `.ok v` is a promise resolved with `v`,
  `.error e` a promise rejected with `e`.
-/

namespace ToDo

/-! ## Data model -/

/-- A todo item `{ id, text, done }` (`src/data.js`, `initialData.todos`). -/
structure Todo where
  id : Int
  text : String
  done : Bool
  deriving DecidableEq, Repr

/-- The ids of a list, in list order. -/
def ids (todos : List Todo) : List Int := todos.map Todo.id

/-- The numbers `parseInt` returns: `NaN`, `Infinity` or `-Infinity`, or an
integer-valued double. -/
inductive JsNum where
  | nan
  | infinity (negative : Bool)
  | int (n : Int)
  deriving DecidableEq, Repr

/-- Strict equality `x === n` of an integer-valued number `x` with a number
`n`; `NaN` and the infinities are strictly equal to no integer. -/
def strictEq (x : Int) (n : JsNum) : Bool :=
  match n with
  | JsNum.int m => decide (x = m)
  | _ => false

/-! ## `parseInt(string, 10)` -/

/-- The code points of `StrWhiteSpaceChar` (ECMAScript `WhiteSpace` and
`LineTerminator`), which `parseInt` and `String.prototype.trim` strip. -/
def isJsWhiteSpace (c : Char) : Bool :=
  let n := c.toNat
  n == 0x09 || n == 0x0A || n == 0x0B || n == 0x0C || n == 0x0D || n == 0x20 ||
  n == 0xA0 || n == 0x1680 || (0x2000 ≤ n && n ≤ 0x200A) || n == 0x2028 ||
  n == 0x2029 || n == 0x202F || n == 0x205F || n == 0x3000 || n == 0xFEFF

/-- A decimal digit `0`..`9`. -/
def isDecDigit (c : Char) : Bool := 48 ≤ c.toNat && c.toNat ≤ 57

/-- The mathematical value of a string of decimal digits. -/
def digitsValue (ds : List Char) : Nat :=
  ds.foldl (fun acc c => 10 * acc + (c.toNat - 48)) 0

/-- The least `s`, counted up from the given one, with `v < 2 ^ (53 + s)`: the
number of low bits of `v` a double's 53-bit significand cannot hold. -/
def excessBits (v : Nat) : Nat → Nat → Nat
  | 0, s => s
  | fuel + 1, s => if v < 2 ^ (53 + s) then s else excessBits v fuel (s + 1)

/-- The double nearest to the natural number `v`, ties going to the even
significand (the Number value for `v`); `none` when that is `Infinity`, which
is from `2 ^ 1024 - 2 ^ 970` on. Below `2 ^ 53` every integer is a double. -/
def roundToDouble (v : Nat) : Option Nat :=
  if v < 2 ^ 53 then some v
  else
    let s := excessBits v v 0
    let q := v / 2 ^ s
    let r := v % 2 ^ s
    let q := if 2 ^ s < 2 * r ∨ (2 * r = 2 ^ s ∧ q % 2 = 1) then q + 1 else q
    if s < 971 ∨ (s = 971 ∧ q < 2 ^ 53) then some (q * 2 ^ s) else none

/-- The Number value of a sign and a magnitude. -/
def toNumber (negative : Bool) (v : Nat) : JsNum :=
  match roundToDouble v with
  | some m => JsNum.int (if negative then -(m : Int) else (m : Int))
  | none => JsNum.infinity negative

/-- The function `parseInt(string, 10)` on the characters of the string:
leading white space is skipped, one sign is read, then the longest prefix of
decimal digits; with no digit the result is `NaN`, and whatever follows the
digits is ignored. The result is the Number value of the integer read, that
is, the integer rounded to the nearest double (as the engines compute it; the
standard lets an implementation approximate digits after the 20th). -/
def parseIntChars (cs : List Char) : JsNum :=
  let s := cs.dropWhile isJsWhiteSpace
  let (neg, s) :=
    match s with
    | '-' :: rest => (true, rest)
    | '+' :: rest => (false, rest)
    | _ => (false, s)
  let z := s.takeWhile isDecDigit
  if z.isEmpty then JsNum.nan else toNumber neg (digitsValue z)

/-- The function `parseInt(string, 10)`. -/
def parseInt (string : String) : JsNum := parseIntChars string.toList

/-! ## Array primitives -/

/-- `Array.prototype.findIndex`: the index of the first element satisfying the
callback, `-1` when there is none. -/
def findIndex {α : Type} (callback : α → Bool) (arr : List α) : Int :=
  if arr.findIdx callback < arr.length then (arr.findIdx callback : Int) else -1

/-- `Array.prototype.splice(start, deleteCount, ...items)`: the pair of the
removed elements (the value returned) and the array after the call (splice
mutates its receiver). A negative `start` counts from the end, and `start` and
`deleteCount` are clamped to the array. -/
def splice {α : Type} (arr : List α) (start : Int) (deleteCount : Nat) (items : List α) :
    List α × List α :=
  let len := arr.length
  let actualStart : Nat :=
    if start < 0 then ((len : Int) + start).toNat else min start.toNat len
  let actualDeleteCount : Nat := min deleteCount (len - actualStart)
  ((arr.drop actualStart).take actualDeleteCount,
   arr.take actualStart ++ items ++ arr.drop (actualStart + actualDeleteCount))

/-! ## `reorderTodos` (`src/services.js`) -/

/-- The function `reorderTodos(todos, draggedId, droppedId)`. The destructuring
`const [removed] = newTodos.splice(draggedIndex, 1)` binds the first removed
element; `draggedIndex` is a valid index at that point, so there is exactly
one. -/
def reorderTodos (todos : List Todo) (draggedId droppedId : String) : List Todo :=
  let dId := parseInt draggedId
  let dpId := parseInt droppedId
  let draggedIndex := findIndex (fun t => strictEq t.id dId) todos
  let droppedIndex := findIndex (fun t => strictEq t.id dpId) todos
  if draggedIndex < 0 || droppedIndex < 0 then todos
  else
    let newTodos := todos
    let (removedItems, newTodos) := splice newTodos draggedIndex 1 []
    let removed := removedItems.take 1
    let (_, newTodos) := splice newTodos droppedIndex 0 removed
    newTodos

/-- The list `reorderTodos` returns when both indices are found, written with
list operations: the element at index `i` is removed and put back at index
`j` of the remaining list. -/
def relocate {α : Type} (arr : List α) (i j : Nat) : List α :=
  (arr.eraseIdx i).take j ++ (arr[i]?).toList ++ (arr.eraseIdx i).drop j

/-- The reorder operation in the words of the specification: both ids are
parsed and located; when either is missing the list is returned unchanged;
otherwise the dragged item is removed and reinserted at the index the dropped
item has in the list with the dragged item already removed. -/
def reorderAsSpecified (todos : List Todo) (draggedId droppedId : String) : List Todo :=
  let dId := parseInt draggedId
  let dpId := parseInt droppedId
  let draggedIndex := findIndex (fun t => strictEq t.id dId) todos
  let droppedIndex := findIndex (fun t => strictEq t.id dpId) todos
  if draggedIndex < 0 || droppedIndex < 0 then todos
  else
    match todos[draggedIndex.toNat]? with
    | none => todos
    | some dragged =>
      let remaining := todos.eraseIdx draggedIndex.toNat
      let currentIndex := findIndex (fun t => strictEq t.id dpId) remaining
      if currentIndex < 0 then todos
      else remaining.take currentIndex.toNat ++ [dragged] ++ remaining.drop currentIndex.toNat

/-! ## The view side of a reorder (`src/dom.js`, `src/main.js`) -/

/-- The value of the `data-id` attribute `renderTodoList` writes for a todo
(the template substitution of `todo.id`). -/
def dataId (todo : Todo) : String := toString todo.id

/-- The `.todo-item` children of `#todo-list` after `renderTodoList(todos)`,
each element named by its `data-id` attribute. -/
def renderTodoList (todos : List Todo) : List String := todos.map dataId

/-- The DOM call `parent.insertBefore(node, child)` on the list of children:
`node` leaves its current position and is placed immediately before `child`;
inserting a node before itself changes nothing. -/
def insertBefore (children : List String) (node child : String) : List String :=
  if node = child then children
  else
    let rest := children.erase node
    rest.take (rest.indexOf child) ++ [node] ++ rest.drop (rest.indexOf child)

/-- The function `moveTodoElement(draggedEl, targetEl)`: "Moves a todo DOM
element before a target element". -/
def moveTodoElement (children : List String) (draggedEl targetEl : String) : List String :=
  insertBefore children draggedEl targetEl

/-- The function `handleDOMReorder(draggedId, droppedId)` of `src/main.js`:
both elements are looked up by their `data-id` and, when both exist, the
dragged one is moved before the drop target. -/
def handleDOMReorder (children : List String) (draggedId droppedId : String) : List String :=
  match children.find? (fun el => el == draggedId), children.find? (fun el => el == droppedId) with
  | some draggedItemEl, some dropTargetEl => moveTodoElement children draggedItemEl dropTargetEl
  | _, _ => children

/-! ## Reconciliation of `appState.todos` (`src/main.js`) -/

/-- The todos of `initialData` (`src/data.js`). -/
def initialTodos : List Todo :=
  [⟨1, "Buy groceries", false⟩, ⟨2, "Read a book", false⟩, ⟨3, "Write code", false⟩]

/-- What the checkbox handler reads of the value `updateTodo` resolved with:
`updatedTodo.id` and `updatedTodo.done`. -/
structure DoneResult where
  id : Int
  done : Bool
  deriving DecidableEq, Repr

/-- What the blur handler reads of the value `updateTodo` resolved with:
`updatedTodo.id` and `updatedTodo.text`. -/
structure TextResult where
  id : Int
  text : String
  deriving DecidableEq, Repr

/-- The checkbox handler's update of the list:
`todos.map(todo => todo.id === updatedTodo.id ? { ...todo, done: updatedTodo.done } : todo)`. -/
def reconcileDone (todos : List Todo) (updatedTodo : DoneResult) : List Todo :=
  todos.map fun todo =>
    if todo.id = updatedTodo.id then { todo with done := updatedTodo.done } else todo

/-- The blur handler's update of the list:
`todos.map(todo => todo.id === updatedTodo.id ? { ...todo, text: updatedTodo.text } : todo)`. -/
def reconcileText (todos : List Todo) (updatedTodo : TextResult) : List Todo :=
  todos.map fun todo =>
    if todo.id = updatedTodo.id then { todo with text := updatedTodo.text } else todo

/-- The delete handler's update of the list:
`todos.filter(todo => todo.id !== parseInt(todoId, 10))`. -/
def reconcileDelete (todos : List Todo) (todoId : String) : List Todo :=
  todos.filter fun todo => !strictEq todo.id (parseInt todoId)

/-- The creation form's update of the list: `appState.todos.push(newTodo)`. -/
def pushCreated (todos : List Todo) (newTodo : Todo) : List Todo :=
  todos ++ [newTodo]

/-! ## JavaScript values and objects -/

/-- The failure a rejected promise or a `throw` carries. -/
abbrev Err := String

/-- The JavaScript values the adapter handles: parsed JSON bodies, the fallback
objects it builds, and the numbers `NaN` and `±Infinity`. The other numbers are
the integer-valued ones. -/
inductive JsVal where
  | undefined
  | null
  | nan
  | infinity (negative : Bool)
  | bool (b : Bool)
  | num (n : Int)
  | str (s : String)
  | arr (items : List JsVal)
  | obj (props : List (String × JsVal))

/-- The own enumerable properties of an object, in insertion order, each key
occurring once. -/
abbrev JsObj := List (String × JsVal)

/-- Defining the property `key: v` on an object: an existing property keeps its
place and takes the new value, a new one is added last. -/
def setProp (o : JsObj) (key : String) (v : JsVal) : JsObj :=
  match o with
  | [] => [(key, v)]
  | (k, w) :: rest => if k = key then (k, v) :: rest else (k, w) :: setProp rest key v

/-- The tail `...source` of an object literal whose earlier properties are
`target`: every property of `source` is defined on it in turn. -/
def spread (target source : JsObj) : JsObj :=
  source.foldl (fun o kv => setProp o kv.1 kv.2) target

/-- The value of the property `key`, `none` when the object has no such
property. -/
def getProp (o : JsObj) (key : String) : Option JsVal :=
  (o.find? (fun kv => kv.1 == key)).map Prod.snd

/-- The property names of an object. -/
def keys (o : JsObj) : List String := o.map Prod.fst

/-- A number as a value. -/
def numVal (n : JsNum) : JsVal :=
  match n with
  | JsNum.int m => JsVal.num m
  | JsNum.infinity negative => JsVal.infinity negative
  | JsNum.nan => JsVal.nan

/-- The text a number takes in a template literal: the decimal digits of an
integer, with a `-` when it is negative. -/
def numText (n : JsNum) : String :=
  match n with
  | JsNum.int m => toString m
  | JsNum.infinity false => "Infinity"
  | JsNum.infinity true => "-Infinity"
  | JsNum.nan => "NaN"

/-- The method `String.prototype.trim`: white space is removed at both ends. -/
def jsTrim (s : String) : String :=
  String.mk ((s.toList.dropWhile isJsWhiteSpace).reverse.dropWhile isJsWhiteSpace).reverse

/-- A todo as the object `{ id, text, done }`. -/
def Todo.toJs (t : Todo) : JsVal :=
  JsVal.obj [("id", JsVal.num t.id), ("text", JsVal.str t.text), ("done", JsVal.bool t.done)]

/-! ## The remote sync adapter (`src/services.js`) -/

/-- What the adapter uses of a `Response`: its `ok` flag and what
`response.json()` settles to. -/
structure Response where
  ok : Bool
  json : Except Err JsVal

/-- A `.note-content` element of the document: its `data-id` attribute and its
`textContent`. -/
structure NoteContent where
  dataId : String
  textContent : String

/-- The function `fetchTodos()`; `fetch` is the promise `fetch("/api/todos")`
returned. -/
def fetchTodos (fetch : Except Err Response) : Except Err JsVal :=
  try
    let response ← fetch
    if !response.ok then throw "Network response was not ok"
    response.json
  catch _ =>
    pure (JsVal.arr [])

/-- The variable `currentText` of the `catch` block of `updateTodo`: it starts
as `"Untitled"`; where there is a `document` (`none` stands for `typeof
document === "undefined"`, otherwise its `.note-content` elements in document
order) and `querySelector` finds the note of the id, it becomes
`textEl.textContent.trim() || "Untitled"`. -/
def currentText (document : Option (List NoteContent)) (id : JsNum) : String :=
  match document with
  | none => "Untitled"
  | some elements =>
    match elements.find? (fun el => el.dataId == numText id) with
    | none => "Untitled"
    | some textEl =>
      if jsTrim textEl.textContent = "" then "Untitled" else jsTrim textEl.textContent

/-- The function `updateTodo(id, updateData)`; `fetch` is the promise the `PUT`
request returned, and `document` the `.note-content` elements of the page in
document order, `none` where there is no `document`. -/
def updateTodo (fetch : Except Err Response) (document : Option (List NoteContent))
    (id : JsNum) (updateData : JsObj) : Except Err JsVal :=
  try
    let response ← fetch
    if !response.ok then throw "Failed to update todo on server"
    response.json
  catch _ =>
    pure (JsVal.obj
      (spread [("id", numVal id), ("text", JsVal.str (currentText document id))] updateData))

/-- The function `createTodo(newTodo)`; `fetch` is the promise the `POST`
request returned and `now` the value of `Date.now()` read by the fallback. -/
def createTodo (fetch : Except Err Response) (now : Int) (newTodo : JsObj) : Except Err JsVal :=
  try
    let response ← fetch
    if !response.ok then throw "Failed to create todo on server"
    response.json
  catch _ =>
    pure (JsVal.obj (spread [("id", JsVal.num now)] newTodo))

/-- The function `deleteTodo(id)`; `fetch` is the promise the `DELETE` request
returned. The id only enters the request. -/
def deleteTodo (fetch : Except Err Response) (_id : JsNum) : Except Err JsVal :=
  try
    let response ← fetch
    if !response.ok then throw "Failed to delete todo on server"
    response.json
  catch _ =>
    pure (JsVal.obj [("success", JsVal.bool true)])

/-! ## Transport outcomes and trimmed text, as the claims name them -/

/-- The outcomes of the transport: the request rejects, the response has a
non-ok status (whatever its body), the response is ok but its body fails to
parse, or the response is ok with parsed body `b`. -/
inductive Outcome where
  | rejects (e : Err)
  | notOk (json : Except Err JsVal)
  | badBody (e : Err)
  | okBody (b : JsVal)

/-- The promise `fetch(...)` returns under an outcome. -/
def Outcome.promise : Outcome → Except Err Response
  | Outcome.rejects e => Except.error e
  | Outcome.notOk json => Except.ok ⟨false, json⟩
  | Outcome.badBody e => Except.ok ⟨true, Except.error e⟩
  | Outcome.okBody b => Except.ok ⟨true, Except.ok b⟩

/-- Whether the remote call failed: every outcome but an ok response with a
parsed body. -/
def Outcome.failed : Outcome → Bool
  | Outcome.okBody _ => false
  | _ => true

/-- The value an operation is expected to resolve with: the parsed body of an
ok response, the given fallback under the three failures. -/
def Outcome.resolve (o : Outcome) (fallback : JsVal) : JsVal :=
  match o with
  | Outcome.okBody b => b
  | _ => fallback

/-- That `t` is the trimmed text of `s`: `s` is `t` between two runs of white
space, and `t` neither starts nor ends with white space. -/
def IsTrimOf (t s : String) : Prop :=
  ∃ l r : List Char, s.toList = l ++ t.toList ++ r ∧
    (∀ c ∈ l, isJsWhiteSpace c = true) ∧ (∀ c ∈ r, isJsWhiteSpace c = true) ∧
    (∀ c, t.toList.head? = some c → isJsWhiteSpace c = false) ∧
    (∀ c, t.toList.getLast? = some c → isJsWhiteSpace c = false)

/-! ## Lemmas on the array primitives -/

theorem findIndex_of_lt {α : Type} (p : α → Bool) (arr : List α)
    (h : arr.findIdx p < arr.length) : findIndex p arr = (arr.findIdx p : Int) := by
  simp [findIndex, h]

theorem findIndex_of_not_lt {α : Type} (p : α → Bool) (arr : List α)
    (h : ¬ arr.findIdx p < arr.length) : findIndex p arr = -1 := by
  simp [findIndex, h]

theorem splice_remove_one {α : Type} (arr : List α) (i : Nat) (h : i < arr.length) :
    splice arr (i : Int) 1 [] = ([arr[i]], arr.take i ++ arr.drop (i + 1)) := by
  have h1 : ¬ ((i : Int) < 0) := by omega
  have h2 : min i arr.length = i := by omega
  have h3 : min 1 (arr.length - i) = 1 := by omega
  simp only [splice, h1, if_false, Int.toNat_ofNat, h2, h3, List.append_nil]
  have h4 : (arr.drop i).take 1 = [arr[i]] := by
    rw [List.drop_eq_getElem_cons h]
    rfl
  rw [h4]

theorem splice_insert {α : Type} (arr : List α) (j : Nat) (items : List α) :
    splice arr (j : Int) 0 items =
      ([], arr.take j ++ items ++ arr.drop j) := by
  have h1 : ¬ ((j : Int) < 0) := by omega
  simp only [splice, h1, if_false, Int.toNat_ofNat, Nat.zero_min, List.take_zero, Nat.add_zero]
  rcases Nat.le_total j arr.length with h | h
  · rw [Nat.min_eq_left h]
  · rw [Nat.min_eq_right h, List.take_of_length_le h, List.drop_of_length_le h,
      List.take_of_length_le (Nat.le_refl _), List.drop_of_length_le (Nat.le_refl _)]

/-! ## `reorderTodos` as a relocation -/

theorem reorderTodos_eq (todos : List Todo) (draggedId droppedId : String) :
    reorderTodos todos draggedId droppedId =
      if todos.findIdx (fun t => strictEq t.id (parseInt draggedId)) < todos.length ∧
          todos.findIdx (fun t => strictEq t.id (parseInt droppedId)) < todos.length then
        relocate todos (todos.findIdx (fun t => strictEq t.id (parseInt draggedId)))
          (todos.findIdx (fun t => strictEq t.id (parseInt droppedId)))
      else todos := by
  by_cases hi : todos.findIdx (fun t => strictEq t.id (parseInt draggedId)) < todos.length
  · by_cases hj : todos.findIdx (fun t => strictEq t.id (parseInt droppedId)) < todos.length
    · have e1 := findIndex_of_lt _ _ hi
      have e2 := findIndex_of_lt _ _ hj
      have n1 : ¬ ((todos.findIdx (fun t => strictEq t.id (parseInt draggedId)) : Int) < 0) := by
        omega
      have n2 : ¬ ((todos.findIdx (fun t => strictEq t.id (parseInt droppedId)) : Int) < 0) := by
        omega
      simp only [reorderTodos, e1, e2, n1, n2, decide_False, Bool.or_self, Bool.false_eq_true,
        if_false, splice_remove_one _ _ hi, splice_insert, hi, hj, and_self, if_true, relocate,
        List.eraseIdx_eq_take_drop_succ, List.getElem?_eq_getElem hi, Option.toList,
        List.take_succ_cons, List.take_zero]
    · have e2 := findIndex_of_not_lt _ _ hj
      simp [reorderTodos, e2, hj]
  · have e1 := findIndex_of_not_lt _ _ hi
    simp [reorderTodos, e1, hi]

theorem relocate_perm {α : Type} (arr : List α) (i j : Nat) (hi : i < arr.length) :
    (relocate arr i j).Perm arr := by
  have h1 : (relocate arr i j).Perm (arr[i] :: arr.eraseIdx i) := by
    simp only [relocate, List.getElem?_eq_getElem hi, Option.toList, List.append_assoc,
      List.singleton_append]
    refine List.perm_middle.trans ?_
    rw [List.take_append_drop]
  have h2 : (arr[i] :: arr.eraseIdx i).Perm arr := by
    rw [List.eraseIdx_eq_take_drop_succ]
    refine List.perm_middle.symm.trans ?_
    rw [← List.drop_eq_getElem_cons hi, List.take_append_drop]
  exact h1.trans h2

theorem relocate_self {α : Type} (arr : List α) (i : Nat) (hi : i < arr.length) :
    relocate arr i i = arr := by
  simp only [relocate, List.getElem?_eq_getElem hi, Option.toList,
    List.eraseIdx_eq_take_drop_succ]
  have hl : (arr.take i).length = i := by simp; omega
  rw [List.take_append_of_le_length (by omega), List.drop_append_of_le_length (by omega)]
  rw [List.take_of_length_le (by omega), List.drop_of_length_le (by omega)]
  simp only [List.nil_append, List.append_assoc, List.singleton_append]
  rw [← List.drop_eq_getElem_cons hi, List.take_append_drop]

theorem relocate_getElem? {α : Type} (arr : List α) (i j : Nat) (hi : i < arr.length)
    (hj : j < arr.length) : (relocate arr i j)[j]? = arr[i]? := by
  have hlen : ((arr.eraseIdx i).take j).length = j := by
    simp [List.length_eraseIdx, hi]; omega
  simp only [relocate, List.getElem?_eq_getElem hi, Option.toList, List.append_assoc,
    List.singleton_append]
  rw [List.getElem?_append_right (by omega), hlen]
  simp

theorem relocate_filter {α : Type} (p : α → Bool) (arr : List α) (i j : Nat)
    (hi : i < arr.length) (hp : p arr[i] = false) :
    (relocate arr i j).filter p = arr.filter p := by
  have h1 : (relocate arr i j).filter p = (arr.eraseIdx i).filter p := by
    simp only [relocate, List.getElem?_eq_getElem hi, Option.toList, List.filter_append,
      List.filter_cons, hp, List.filter_nil, List.append_nil, Bool.false_eq_true, if_false]
    rw [← List.filter_append, List.take_append_drop]
  have e : arr = arr.take i ++ arr[i] :: arr.drop (i + 1) := by
    rw [← List.drop_eq_getElem_cons hi, List.take_append_drop]
  have h2 : arr.filter p = (arr.take i ++ arr[i] :: arr.drop (i + 1)).filter p :=
    congrArg (List.filter p) e
  rw [h1, h2, List.eraseIdx_eq_take_drop_succ, List.filter_append, List.filter_append,
    List.filter_cons]
  simp [hp]

theorem findIdx_of_nodup_ids (todos : List Todo) (i : Nat) (x : Todo)
    (hnd : (ids todos).Nodup) (hx : todos[i]? = some x) :
    todos.findIdx (fun t => strictEq t.id (JsNum.int x.id)) = i := by
  obtain ⟨hi, hxi⟩ := List.getElem?_eq_some.mp hx
  rw [List.findIdx_eq hi]
  refine ⟨by simp [strictEq, hxi], ?_⟩
  intro k hk
  have hkl : k < todos.length := by omega
  simp only [strictEq, decide_eq_false_iff_not]
  intro hid
  have hk2 : k < (ids todos).length := by simp [ids]; omega
  have hi2 : i < (ids todos).length := by simp [ids]; omega
  have hinj := (@List.Nodup.getElem_inj_iff _ (ids todos) hnd k hk2 i hi2).mp
    (by simp [ids, hid, hxi])
  omega

theorem findIdx_not_lt_of_absent (todos : List Todo) (n : JsNum)
    (h : ∀ x ∈ todos, n ≠ JsNum.int x.id) :
    ¬ todos.findIdx (fun t => strictEq t.id n) < todos.length := by
  intro hlt
  have hp := @List.findIdx_getElem _ (fun t => strictEq t.id n) todos hlt
  cases n with
  | nan => simp [strictEq] at hp
  | infinity negative => simp [strictEq] at hp
  | int m =>
    have hp2 : (todos[todos.findIdx (fun t => strictEq t.id (JsNum.int m))]).id = m :=
      of_decide_eq_true hp
    exact h _ (List.getElem_mem hlt) (by rw [hp2])

theorem reorderTodos_perm (todos : List Todo) (draggedId droppedId : String) :
    (reorderTodos todos draggedId droppedId).Perm todos := by
  rw [reorderTodos_eq]
  split
  · next h => exact relocate_perm _ _ _ h.1
  · exact List.Perm.refl _

theorem ids_reconcileDone (todos : List Todo) (r : DoneResult) :
    ids (reconcileDone todos r) = ids todos := by
  simp only [ids, reconcileDone, List.map_map]
  apply List.map_congr_left
  intro t _
  by_cases h : t.id = r.id <;> simp [h]

theorem ids_reconcileText (todos : List Todo) (r : TextResult) :
    ids (reconcileText todos r) = ids todos := by
  simp only [ids, reconcileText, List.map_map]
  apply List.map_congr_left
  intro t _
  by_cases h : t.id = r.id <;> simp [h]

theorem mem_reconcileDelete (todos : List Todo) (todoId : String) (t : Todo) :
    t ∈ reconcileDelete todos todoId ↔ t ∈ todos ∧ parseInt todoId ≠ JsNum.int t.id := by
  simp only [reconcileDelete, List.mem_filter, Bool.not_eq_true', and_congr_right_iff]
  intro _
  cases h : parseInt todoId with
  | nan => simp [strictEq]
  | infinity negative => simp [strictEq]
  | int m =>
    simp only [strictEq, decide_eq_false_iff_not, ne_eq, JsNum.int.injEq]
    exact ⟨fun h1 h2 => h1 h2.symm, fun h1 h2 => h1 h2.symm⟩

/-! ## Lemmas on objects and on the adapter -/

theorem getProp_setProp_same (o : JsObj) (key : String) (v : JsVal) :
    getProp (setProp o key v) key = some v := by
  induction o with
  | nil => simp [setProp, getProp]
  | cons kw rest ih =>
    obtain ⟨k, w⟩ := kw
    by_cases h : k = key
    · simp [setProp, getProp, h]
    · simp only [setProp, h, if_false]
      have hb : (k == key) = false := by simp [h]
      simp only [getProp, List.find?_cons, hb] at ih ⊢
      exact ih

theorem getProp_setProp_other (o : JsObj) (key other : String) (v : JsVal) (h : key ≠ other) :
    getProp (setProp o key v) other = getProp o other := by
  induction o with
  | nil => simp [setProp, getProp, h]
  | cons kw rest ih =>
    obtain ⟨k, w⟩ := kw
    by_cases hk : k = key
    · subst hk
      simp [setProp, getProp, h]
    · simp only [setProp, hk, if_false]
      by_cases ho : k = other
      · simp [getProp, ho]
      · have hb : (k == other) = false := by simp [ho]
        simp only [getProp, List.find?_cons, hb] at ih ⊢
        exact ih

theorem getProp_spread_of_not_mem (source target : JsObj) (key : String)
    (h : key ∉ keys source) : getProp (spread target source) key = getProp target key := by
  induction source generalizing target with
  | nil => rfl
  | cons kv rest ih =>
    obtain ⟨k, v⟩ := kv
    simp only [keys, List.map_cons, List.mem_cons, not_or] at h
    have hrest : key ∉ keys rest := h.2
    have hne : k ≠ key := fun e => h.1 e.symm
    show getProp (spread (setProp target k v) rest) key = getProp target key
    rw [ih _ hrest, getProp_setProp_other _ _ _ _ hne]

theorem getProp_spread_of_mem (source target : JsObj) (key : String) (v : JsVal)
    (hnd : (keys source).Nodup) (h : (key, v) ∈ source) :
    getProp (spread target source) key = some v := by
  induction source generalizing target with
  | nil => simp at h
  | cons kw rest ih =>
    obtain ⟨k, w⟩ := kw
    simp only [keys, List.map_cons, List.nodup_cons] at hnd
    show getProp (spread (setProp target k w) rest) key = some v
    rcases List.mem_cons.mp h with h | h
    · simp only [Prod.mk.injEq] at h
      obtain ⟨hk, hv⟩ := h
      subst hk hv
      rw [getProp_spread_of_not_mem _ _ _ hnd.1, getProp_setProp_same]
    · exact ih _ hnd.2 h

theorem getProp_eq_none_iff (o : JsObj) (key : String) :
    getProp o key = none ↔ key ∉ keys o := by
  simp only [getProp, Option.map_eq_none', List.find?_eq_none, beq_iff_eq, keys, List.mem_map,
    not_exists, not_and, Prod.forall]

theorem dropWhile_of_head {α : Type} (p : α → Bool) (m : List α)
    (h : ∀ c, m.head? = some c → p c = false) : m.dropWhile p = m := by
  cases m with
  | nil => rfl
  | cons c cs => simp [List.dropWhile_cons, h c rfl]

theorem dropWhile_of_all {α : Type} (p : α → Bool) (m : List α)
    (h : ∀ c ∈ m, p c = true) : m.dropWhile p = [] := by
  induction m with
  | nil => rfl
  | cons c cs ih =>
    simp only [List.dropWhile_cons, h c (List.mem_cons_self _ _), if_true]
    exact ih (fun d hd => h d (List.mem_cons_of_mem _ hd))

theorem dropWhile_append_of_all {α : Type} (p : α → Bool) (l m : List α)
    (h : ∀ c ∈ l, p c = true) : (l ++ m).dropWhile p = m.dropWhile p := by
  induction l with
  | nil => rfl
  | cons c cs ih =>
    simp only [List.cons_append, List.dropWhile_cons, h c (List.mem_cons_self _ _), if_true]
    exact ih (fun d hd => h d (List.mem_cons_of_mem _ hd))

theorem jsTrim_of_isTrimOf (t s : String) (h : IsTrimOf t s) : jsTrim s = t := by
  obtain ⟨l, r, hs, hl, hr, hhead, hlast⟩ := h
  have hcs : ((s.toList.dropWhile isJsWhiteSpace).reverse.dropWhile isJsWhiteSpace).reverse =
      t.toList := by
    rw [hs, List.append_assoc, dropWhile_append_of_all _ _ _ hl]
    cases ht : t.toList with
    | nil =>
      rw [List.nil_append, dropWhile_of_all _ _ hr]
      rfl
    | cons c cs =>
      rw [← ht, List.dropWhile_append]
      have h1 : t.toList.dropWhile isJsWhiteSpace = t.toList := dropWhile_of_head _ _ hhead
      have hne : ¬ (t.toList.dropWhile isJsWhiteSpace).isEmpty = true := by
        rw [h1, ht]
        simp
      rw [if_neg hne, h1, List.reverse_append,
        dropWhile_append_of_all _ _ _ (fun d hd => hr d (List.mem_reverse.mp hd)),
        dropWhile_of_head _ _ (fun d hd => hlast d (by rw [← hd, List.head?_reverse])),
        List.reverse_reverse]
  show String.mk _ = t
  rw [hcs]
  rfl

theorem currentText_of_no_note (elements : List NoteContent) (id : JsNum)
    (h : ∀ el ∈ elements, el.dataId ≠ numText id) :
    currentText (some elements) id = "Untitled" := by
  have hf : elements.find? (fun el => el.dataId == numText id) = none := by
    rw [List.find?_eq_none]
    intro el hel
    simpa using h el hel
  simp only [currentText, hf]

theorem currentText_of_note (before : List NoteContent) (el : NoteContent)
    (after : List NoteContent) (id : JsNum) (t : String)
    (hbefore : ∀ e ∈ before, e.dataId ≠ numText id) (hel : el.dataId = numText id)
    (ht : IsTrimOf t el.textContent) :
    currentText (some (before ++ el :: after)) id = if t = "" then "Untitled" else t := by
  have hb : before.find? (fun e => e.dataId == numText id) = none := by
    rw [List.find?_eq_none]
    intro e he
    simpa using hbefore e he
  have hf : (before ++ el :: after).find? (fun e => e.dataId == numText id) = some el := by
    rw [List.find?_append, hb, List.find?_cons_of_pos _ (by simpa using hel)]
    rfl
  simp only [currentText, hf, jsTrim_of_isTrimOf t _ ht]

theorem updateTodo_of_failed (o : Outcome) (document : Option (List NoteContent))
    (id : JsNum) (updateData : JsObj) (hfail : o.failed = true) :
    updateTodo o.promise document id updateData =
      Except.ok (JsVal.obj (spread
        [("id", numVal id), ("text", JsVal.str (currentText document id))] updateData)) := by
  cases o with
  | okBody b => simp [Outcome.failed] at hfail
  | rejects e => rfl
  | notOk json => rfl
  | badBody e => rfl

theorem createTodo_of_failed (o : Outcome) (now : Int) (newTodo : JsObj)
    (hfail : o.failed = true) :
    createTodo o.promise now newTodo =
      Except.ok (JsVal.obj (spread [("id", JsVal.num now)] newTodo)) := by
  cases o with
  | okBody b => simp [Outcome.failed] at hfail
  | rejects e => rfl
  | notOk json => rfl
  | badBody e => rfl

/-! ## The claims -/

/-- C1, evaluated on the todos of `initialData`: the ids are pairwise distinct
and ids 1 and 3 are present and distinct, yet dragging item 1 onto item 3
leaves it after item 3, `[2, 3, 1]`, where removing it and reinserting it at
the index item 3 has in the remaining list gives `[2, 1, 3]`, which is also
the order `handleDOMReorder` gives the rendered elements. -/
theorem reorderTodos_forward_drag_lands_after_target :
    (ids initialTodos).Nodup ∧
    ids (reorderTodos initialTodos "1" "3") = [2, 3, 1] ∧
    ids (reorderAsSpecified initialTodos "1" "3") = [2, 1, 3] ∧
    handleDOMReorder (renderTodoList initialTodos) "1" "3" = ["2", "1", "3"] ∧
    renderTodoList (reorderTodos initialTodos "1" "3") = ["2", "3", "1"] := by
  refine ⟨by decide, by decide, by decide, by rfl, by rfl⟩

/-- C2: in a list with pairwise distinct ids, when `draggedId` parses to the id
of the item `x` at index `i` and `droppedId` to the id of the item `y` at index
`j`, `reorderTodos` has `x` at index `j` and keeps the items other than `x` in
their order; and every list with ids `[1, 2, 3]` is reordered by `"1"`, `"3"`
to ids `[2, 3, 1]`. -/
theorem reorderTodos_dragged_at_dropped_index (todos : List Todo)
    (draggedId droppedId : String) (i j : Nat) (x y : Todo)
    (hnd : (ids todos).Nodup) (hx : todos[i]? = some x) (hy : todos[j]? = some y)
    (hd : parseInt draggedId = JsNum.int x.id) (hp : parseInt droppedId = JsNum.int y.id) :
    (reorderTodos todos draggedId droppedId)[j]? = some x ∧
    (reorderTodos todos draggedId droppedId).filter (fun t => t.id != x.id) =
      todos.filter (fun t => t.id != x.id) ∧
    (∀ l : List Todo, ids l = [1, 2, 3] → ids (reorderTodos l "1" "3") = [2, 3, 1]) := by
  obtain ⟨hi, hxi⟩ := List.getElem?_eq_some.mp hx
  obtain ⟨hj, _⟩ := List.getElem?_eq_some.mp hy
  have ei := findIdx_of_nodup_ids todos i x hnd hx
  have ej := findIdx_of_nodup_ids todos j y hnd hy
  have hre : reorderTodos todos draggedId droppedId = relocate todos i j := by
    rw [reorderTodos_eq, hd, hp, ei, ej]
    simp [hi, hj]
  refine ⟨?_, ?_, ?_⟩
  · rw [hre, relocate_getElem? _ _ _ hi hj, hx]
  · rw [hre]
    exact relocate_filter _ _ _ _ hi (by simp [hxi])
  · intro l hl
    rcases l with _ | ⟨a, _ | ⟨b, _ | ⟨c, _ | ⟨d, r⟩⟩⟩⟩
    · simp [ids] at hl
    · simp [ids] at hl
    · simp [ids] at hl
    · simp only [ids, List.map_cons, List.map_nil, List.cons.injEq, and_true] at hl
      obtain ⟨ha, hb, hc⟩ := hl
      have p1 : parseInt "1" = JsNum.int 1 := by decide
      have p3 : parseInt "3" = JsNum.int 3 := by decide
      rw [reorderTodos_eq, p1, p3]
      simp [List.findIdx_cons, strictEq, ha, hb, hc, relocate, ids]
    · simp [ids] at hl

theorem reorderTodos_dragged_at_dropped_index_witness :
    (reorderTodos initialTodos "1" "3")[2]? = some ⟨1, "Buy groceries", false⟩ ∧
    (reorderTodos initialTodos "1" "3").filter (fun t => t.id != 1) =
      initialTodos.filter (fun t => t.id != 1) :=
  have h := reorderTodos_dragged_at_dropped_index initialTodos "1" "3" 0 2
    ⟨1, "Buy groceries", false⟩ ⟨3, "Write code", false⟩ (by decide) (by decide) (by decide)
    (by decide) (by decide)
  ⟨h.1, h.2.1⟩

/-- C3: for every list (ids distinct or not) and every pair of id strings,
`reorderTodos` returns a list of the same length that is a permutation of the
given one, so with the same multiset of ids. -/
theorem reorderTodos_permutation (todos : List Todo) (draggedId droppedId : String) :
    (reorderTodos todos draggedId droppedId).length = todos.length ∧
    (reorderTodos todos draggedId droppedId).Perm todos ∧
    (↑(ids (reorderTodos todos draggedId droppedId)) : Multiset Int) = ↑(ids todos) := by
  have h := reorderTodos_perm todos draggedId droppedId
  exact ⟨h.length_eq, h, Multiset.coe_eq_coe.mpr (h.map Todo.id)⟩

/-- C4: `reorderTodos` returns the list unchanged on a self-drop, and whenever
the integer parsed from `draggedId` or from `droppedId` is the id of no item
(which includes a string that parses to no integer). -/
theorem reorderTodos_unchanged (todos : List Todo) (draggedId droppedId : String)
    (h : draggedId = droppedId ∨ (∀ t ∈ todos, parseInt draggedId ≠ JsNum.int t.id) ∨
      (∀ t ∈ todos, parseInt droppedId ≠ JsNum.int t.id)) :
    reorderTodos todos draggedId droppedId = todos := by
  rw [reorderTodos_eq]
  split
  · next hlt =>
    rcases h with h | h | h
    · subst h
      exact relocate_self _ _ hlt.1
    · exact absurd hlt.1 (findIdx_not_lt_of_absent _ _ h)
    · exact absurd hlt.2 (findIdx_not_lt_of_absent _ _ h)
  · rfl

theorem reorderTodos_unchanged_witness :
    reorderTodos initialTodos "2" "2" = initialTodos ∧
    reorderTodos initialTodos "1" "7" = initialTodos ∧
    reorderTodos initialTodos "abc" "1" = initialTodos ∧
    reorderTodos [⟨1, "A", false⟩, ⟨9007199254740994, "B", false⟩] "9007199254740993" "1" =
      [⟨1, "A", false⟩, ⟨9007199254740994, "B", false⟩] :=
  ⟨reorderTodos_unchanged initialTodos "2" "2" (Or.inl rfl),
   reorderTodos_unchanged initialTodos "1" "7" (Or.inr (Or.inr (by decide))),
   reorderTodos_unchanged initialTodos "abc" "1" (Or.inr (Or.inl (by decide))),
   reorderTodos_unchanged [⟨1, "A", false⟩, ⟨9007199254740994, "B", false⟩]
     "9007199254740993" "1" (Or.inr (Or.inl (by decide)))⟩

/-- C5: the checkbox handler's update keeps the length and the positions; an
item whose id is the result's id gets the result's `done` and keeps its id and
text, an item with another id is unchanged; with no item of that id the list
is unchanged; and `{id: 1, done: true}` on the two-item list of the scenario
gives the expected list. -/
theorem reconcileDone_frame (todos : List Todo) (r : DoneResult) :
    (reconcileDone todos r).length = todos.length ∧
    (∀ (k : Nat) (t : Todo), todos[k]? = some t →
      ∃ u, (reconcileDone todos r)[k]? = some u ∧ u.id = t.id ∧ u.text = t.text ∧
        (t.id = r.id → u.done = r.done) ∧ (t.id ≠ r.id → u = t)) ∧
    ((∀ t ∈ todos, t.id ≠ r.id) → reconcileDone todos r = todos) ∧
    reconcileDone [⟨1, "A", false⟩, ⟨2, "B", false⟩] ⟨1, true⟩ =
      [⟨1, "A", true⟩, ⟨2, "B", false⟩] := by
  refine ⟨by simp [reconcileDone], ?_, ?_, by decide⟩
  · intro k t hk
    by_cases h : t.id = r.id
    · exact ⟨{ t with done := r.done }, by simp [reconcileDone, hk, h], rfl, rfl,
        fun _ => rfl, fun hne => absurd h hne⟩
    · exact ⟨t, by simp [reconcileDone, hk, h], rfl, rfl, fun he => absurd he h, fun _ => rfl⟩
  · intro h
    simp only [reconcileDone]
    conv_rhs => rw [← List.map_id todos]
    apply List.map_congr_left
    intro t ht
    simp [h t ht]

theorem reconcileDone_frame_witness :
    reconcileDone initialTodos ⟨9, true⟩ = initialTodos ∧
    ∃ u, (reconcileDone initialTodos ⟨2, true⟩)[1]? = some u ∧ u.id = 2 ∧
      u.text = "Read a book" ∧ ((2 : Int) = 2 → u.done = true) ∧
      ((2 : Int) ≠ 2 → u = ⟨2, "Read a book", false⟩) :=
  ⟨(reconcileDone_frame initialTodos ⟨9, true⟩).2.2.1 (by decide),
   (reconcileDone_frame initialTodos ⟨2, true⟩).2.1 1 ⟨2, "Read a book", false⟩ (by decide)⟩

/-- C6: the delete handler's filter leaves no item whose id is the parsed
`todoId`, keeps every other item, as often as it occurred and in the original
order (the result is a sublist), is idempotent, and changes nothing when no
item has that id; deleting `"2"` from the todos of `initialData` leaves items
1 and 3, and the digit string `"9007199254740993"` deletes the item whose id is
the double it rounds to. -/
theorem reconcileDelete_idempotent (todos : List Todo) (todoId : String) :
    (∀ t ∈ reconcileDelete todos todoId, parseInt todoId ≠ JsNum.int t.id) ∧
    (reconcileDelete todos todoId).Sublist todos ∧
    (∀ t : Todo, parseInt todoId ≠ JsNum.int t.id →
      (reconcileDelete todos todoId).count t = todos.count t) ∧
    reconcileDelete (reconcileDelete todos todoId) todoId = reconcileDelete todos todoId ∧
    ((∀ t ∈ todos, parseInt todoId ≠ JsNum.int t.id) → reconcileDelete todos todoId = todos) ∧
    reconcileDelete initialTodos "2" =
      [⟨1, "Buy groceries", false⟩, ⟨3, "Write code", false⟩] ∧
    reconcileDelete [⟨1, "A", false⟩, ⟨9007199254740992, "B", false⟩] "9007199254740993" =
      [⟨1, "A", false⟩] := by
  refine ⟨fun t ht => ((mem_reconcileDelete _ _ _).mp ht).2, List.filter_sublist _, ?_, ?_, ?_,
    by decide, by decide⟩
  · intro t ht
    apply List.count_filter
    cases hp : parseInt todoId with
    | nan => simp [strictEq]
    | infinity negative => simp [strictEq]
    | int m =>
      rw [hp] at ht
      simp only [strictEq, Bool.not_eq_true', decide_eq_false_iff_not]
      intro e
      exact ht (by rw [e])
  · simp [reconcileDelete, List.filter_filter]
  · intro h
    apply List.filter_eq_self.mpr
    intro t ht
    have := h t ht
    cases hp : parseInt todoId with
    | nan => simp [strictEq]
    | infinity negative => simp [strictEq]
    | int m =>
      rw [hp] at this
      simp only [strictEq, Bool.not_eq_true', decide_eq_false_iff_not]
      intro e
      exact this (by rw [e])

theorem reconcileDelete_idempotent_witness :
    reconcileDelete initialTodos "8" = initialTodos ∧
    (reconcileDelete initialTodos "2").count ⟨3, "Write code", false⟩ =
      initialTodos.count ⟨3, "Write code", false⟩ ∧
    (⟨2, "Read a book", false⟩ : Todo) ∉ reconcileDelete initialTodos "2" ∧
    (⟨9007199254740992, "B", false⟩ : Todo) ∉
      reconcileDelete [⟨1, "A", false⟩, ⟨9007199254740992, "B", false⟩] "9007199254740993" :=
  ⟨(reconcileDelete_idempotent initialTodos "8").2.2.2.2.1 (by decide),
   (reconcileDelete_idempotent initialTodos "2").2.2.1 ⟨3, "Write code", false⟩ (by decide),
   fun h => (reconcileDelete_idempotent initialTodos "2").1 _ h (by decide),
   fun h => (reconcileDelete_idempotent
     [⟨1, "A", false⟩, ⟨9007199254740992, "B", false⟩] "9007199254740993").1 _ h (by decide)⟩

/-- C7 as stated fails: a list with distinct ids, extended with a create-result
whose id is already in the list (the body of an ok response, or the fallback
at a clock reading equal to an id), no longer has distinct ids. -/
theorem pushCreated_repeats_id :
    (ids [(⟨7, "A", false⟩ : Todo)]).Nodup ∧
    createTodo (Outcome.okBody (Todo.toJs ⟨7, "B", false⟩)).promise 0
        [("text", JsVal.str "B"), ("done", JsVal.bool false)] =
      Except.ok (Todo.toJs ⟨7, "B", false⟩) ∧
    createTodo (Outcome.rejects "offline").promise 7
        [("text", JsVal.str "B"), ("done", JsVal.bool false)] =
      Except.ok (Todo.toJs ⟨7, "B", false⟩) ∧
    ¬ (ids (pushCreated [⟨7, "A", false⟩] ⟨7, "B", false⟩)).Nodup := by
  refine ⟨by decide, rfl, rfl, by decide⟩

/-- C7 as amended: for a list with pairwise distinct ids, the ids stay pairwise
distinct under update reconciliation (of `done` and of `text`), delete
reconciliation and `reorderTodos`, and under appending a create-result whose
id is not yet in the list. -/
theorem distinct_ids_preserved (todos : List Todo) (hnd : (ids todos).Nodup) :
    (∀ newTodo : Todo, newTodo.id ∉ ids todos → (ids (pushCreated todos newTodo)).Nodup) ∧
    (∀ r : DoneResult, (ids (reconcileDone todos r)).Nodup) ∧
    (∀ r : TextResult, (ids (reconcileText todos r)).Nodup) ∧
    (∀ todoId : String, (ids (reconcileDelete todos todoId)).Nodup) ∧
    (∀ draggedId droppedId : String, (ids (reorderTodos todos draggedId droppedId)).Nodup) := by
  refine ⟨?_, ?_, ?_, ?_, ?_⟩
  · intro newTodo hnew
    simp only [ids, pushCreated, List.map_append, List.map_cons, List.map_nil]
    rw [List.nodup_append]
    refine ⟨hnd, by simp, ?_⟩
    intro a ha hb
    simp only [List.mem_singleton] at hb
    exact hnew (hb ▸ ha)
  · intro r
    rw [ids_reconcileDone]
    exact hnd
  · intro r
    rw [ids_reconcileText]
    exact hnd
  · intro todoId
    exact List.Nodup.sublist ((List.filter_sublist _).map Todo.id) hnd
  · intro draggedId droppedId
    exact (List.Perm.nodup_iff ((reorderTodos_perm todos draggedId droppedId).map Todo.id)).mpr hnd

theorem distinct_ids_preserved_witness :
    (ids (pushCreated initialTodos ⟨4, "New", false⟩)).Nodup ∧
    (ids (reorderTodos initialTodos "1" "3")).Nodup ∧
    (ids (reconcileDelete initialTodos "2")).Nodup :=
  have h := distinct_ids_preserved initialTodos (by decide)
  ⟨h.1 ⟨4, "New", false⟩ (by decide), h.2.2.2.2 "1" "3", h.2.2.2.1 "2"⟩

/-- C8: under every transport outcome each of the four operations resolves: with
the parsed body of an ok response, and with one and the same fallback under
the three failures, which is `[]` for `fetchTodos` and `{success: true}` for
`deleteTodo` whatever the id; and every promise `fetch` can return is one of
the four outcomes. -/
theorem adapter_always_resolves (document : Option (List NoteContent)) (id : JsNum)
    (updateData : JsObj) (now : Int) (newTodo : JsObj) :
    (∀ o : Outcome, fetchTodos o.promise = Except.ok (o.resolve (JsVal.arr []))) ∧
    (∀ o : Outcome, deleteTodo o.promise id =
      Except.ok (o.resolve (JsVal.obj [("success", JsVal.bool true)]))) ∧
    (∃ fallback, ∀ o : Outcome,
      updateTodo o.promise document id updateData = Except.ok (o.resolve fallback)) ∧
    (∃ fallback, ∀ o : Outcome,
      createTodo o.promise now newTodo = Except.ok (o.resolve fallback)) ∧
    (∀ fetch : Except Err Response, ∃ o : Outcome, o.promise = fetch) := by
  refine ⟨?_, ?_,
    ⟨JsVal.obj (spread
      [("id", numVal id), ("text", JsVal.str (currentText document id))] updateData), ?_⟩,
    ⟨JsVal.obj (spread [("id", JsVal.num now)] newTodo), ?_⟩, ?_⟩
  · intro o
    cases o <;> rfl
  · intro o
    cases o <;> rfl
  · intro o
    cases o with
    | okBody b => rfl
    | rejects e => exact updateTodo_of_failed (Outcome.rejects e) _ _ _ rfl
    | notOk json => exact updateTodo_of_failed (Outcome.notOk json) _ _ _ rfl
    | badBody e => exact updateTodo_of_failed (Outcome.badBody e) _ _ _ rfl
  · intro o
    cases o with
    | okBody b => rfl
    | rejects e => exact createTodo_of_failed (Outcome.rejects e) _ _ rfl
    | notOk json => exact createTodo_of_failed (Outcome.notOk json) _ _ rfl
    | badBody e => exact createTodo_of_failed (Outcome.badBody e) _ _ rfl
  · intro fetch
    match fetch with
    | Except.error e => exact ⟨Outcome.rejects e, rfl⟩
    | Except.ok ⟨false, json⟩ => exact ⟨Outcome.notOk json, rfl⟩
    | Except.ok ⟨true, Except.error e⟩ => exact ⟨Outcome.badBody e, rfl⟩
    | Except.ok ⟨true, Except.ok b⟩ => exact ⟨Outcome.okBody b, rfl⟩

/-- C9 as stated fails: an `id` property of `updateData` replaces the given id
in the fallback object, `updateTodo(1, {id: 5, done: true})` resolving with
`{id: 5, text: "Untitled", done: true}`. -/
theorem updateTodo_id_overridden :
    updateTodo (Outcome.rejects "offline").promise none (JsNum.int 1)
        [("id", JsVal.num 5), ("done", JsVal.bool true)] =
      Except.ok (JsVal.obj
        [("id", JsVal.num 5), ("text", JsVal.str "Untitled"), ("done", JsVal.bool true)]) ∧
    getProp [("id", JsVal.num 5), ("text", JsVal.str "Untitled"), ("done", JsVal.bool true)]
      "id" = some (JsVal.num 5) ∧
    JsVal.num 5 ≠ numVal (JsNum.int 1) := by
  refine ⟨rfl, rfl, ?_⟩
  intro h
  simp [numVal] at h

/-- C9 as amended: when the remote call fails, `updateTodo(id, updateData)`, for
an object `updateData` (its keys distinct, as in every object), resolves with
an object that has every property of `updateData` with its value (so the
supplied text when there is one), the given id when `updateData`
has no `id` property, and, when `updateData` has no `text` property, as `text`
the trimmed text of the first note whose `data-id` is the id's decimal text if
that trimmed text is non-empty, and `"Untitled"` if it is empty, if there is no
such note, or if there is no document. With no document `updateTodo(1, {done:
true})` resolves with `{id: 1, text: "Untitled", done: true}`, and with the
note of item 1 reading `"  Buy groceries \n"` with text `"Buy groceries"`. -/
theorem updateTodo_fallback (o : Outcome) (document : Option (List NoteContent))
    (id : JsNum) (updateData : JsObj) (hfail : o.failed = true)
    (hkeys : (keys updateData).Nodup) :
    ∃ r : JsObj, updateTodo o.promise document id updateData = Except.ok (JsVal.obj r) ∧
      ("id" ∉ keys updateData → getProp r "id" = some (numVal id)) ∧
      (∀ k v, (k, v) ∈ updateData → getProp r k = some v) ∧
      ("text" ∉ keys updateData →
        (document = none → getProp r "text" = some (JsVal.str "Untitled")) ∧
        (∀ elements, document = some elements →
          (∀ el ∈ elements, el.dataId ≠ numText id) →
          getProp r "text" = some (JsVal.str "Untitled")) ∧
        (∀ before el after t, document = some (before ++ el :: after) →
          (∀ e ∈ before, e.dataId ≠ numText id) → el.dataId = numText id →
          IsTrimOf t el.textContent →
          getProp r "text" = some (JsVal.str (if t = "" then "Untitled" else t)))) ∧
      updateTodo o.promise none (JsNum.int 1) [("done", JsVal.bool true)] =
        Except.ok (JsVal.obj
          [("id", JsVal.num 1), ("text", JsVal.str "Untitled"), ("done", JsVal.bool true)]) ∧
      updateTodo o.promise
          (some [⟨"2", " Read a book "⟩, ⟨"1", "  Buy groceries \n"⟩, ⟨"1", "stale"⟩])
          (JsNum.int 1) [("done", JsVal.bool true)] =
        Except.ok (JsVal.obj
          [("id", JsVal.num 1), ("text", JsVal.str "Buy groceries"),
            ("done", JsVal.bool true)]) := by
  refine ⟨_, updateTodo_of_failed o document id updateData hfail, ?_, ?_, ?_, ?_, ?_⟩
  · intro hid
    rw [getProp_spread_of_not_mem _ _ _ hid]
    rfl
  · intro k v hkv
    exact getProp_spread_of_mem _ _ _ _ hkeys hkv
  · intro htext
    have hget : getProp (spread
        [("id", numVal id), ("text", JsVal.str (currentText document id))] updateData) "text" =
        some (JsVal.str (currentText document id)) := by
      rw [getProp_spread_of_not_mem _ _ _ htext]
      rfl
    rw [hget]
    refine ⟨?_, ?_, ?_⟩
    · intro hd
      rw [hd]
      rfl
    · intro elements hd hnone
      rw [hd, currentText_of_no_note _ _ hnone]
    · intro before el after t hd hbefore hel ht
      rw [hd, currentText_of_note _ _ _ _ _ hbefore hel ht]
  · rw [updateTodo_of_failed o none (JsNum.int 1) _ hfail]
    rfl
  · rw [updateTodo_of_failed o _ (JsNum.int 1) _ hfail]
    rfl

theorem updateTodo_fallback_witness :
    ∃ r : JsObj,
      updateTodo (Outcome.notOk (Except.ok (JsVal.obj [("error", JsVal.str "Failed")]))).promise
        (some [⟨"2", " Read a book "⟩, ⟨"1", "  Buy groceries \n"⟩]) (JsNum.int 1)
        [("done", JsVal.bool true)] = Except.ok (JsVal.obj r) ∧
      getProp r "id" = some (JsVal.num 1) ∧
      getProp r "done" = some (JsVal.bool true) ∧
      getProp r "text" = some (JsVal.str "Buy groceries") := by
  obtain ⟨r, h1, h2, h3, h4, _⟩ := updateTodo_fallback
    (Outcome.notOk (Except.ok (JsVal.obj [("error", JsVal.str "Failed")])))
    (some [⟨"2", " Read a book "⟩, ⟨"1", "  Buy groceries \n"⟩]) (JsNum.int 1)
    [("done", JsVal.bool true)] rfl (by decide)
  refine ⟨r, h1, h2 (by decide), h3 "done" _ (by simp), ?_⟩
  have ht : IsTrimOf "Buy groceries" "  Buy groceries \n" :=
    ⟨[' ', ' '], [' ', '\n'], by rfl, by decide, by decide, by decide, by decide⟩
  have h := (h4 (by decide)).2.2 [⟨"2", " Read a book "⟩] ⟨"1", "  Buy groceries \n"⟩ []
    "Buy groceries" rfl (by decide) (by decide) ht
  simpa using h

/-- C10 as stated fails: two fallback creations at the same clock reading get
the same id, and that id can be the id of a todo already in the list. -/
theorem createTodo_same_clock_same_id :
    createTodo (Outcome.rejects "offline").promise 1700000000000
        [("text", JsVal.str "first"), ("done", JsVal.bool false)] =
      Except.ok (Todo.toJs ⟨1700000000000, "first", false⟩) ∧
    createTodo (Outcome.rejects "offline").promise 1700000000000
        [("text", JsVal.str "second"), ("done", JsVal.bool false)] =
      Except.ok (Todo.toJs ⟨1700000000000, "second", false⟩) ∧
    createTodo (Outcome.rejects "offline").promise 3
        [("text", JsVal.str "third"), ("done", JsVal.bool false)] =
      Except.ok (Todo.toJs ⟨3, "third", false⟩) ∧
    (3 : Int) ∈ ids initialTodos := by
  refine ⟨rfl, rfl, rfl, by decide⟩

/-- C10 as amended: when the remote call fails, `createTodo({text, done})`
resolves with the object of exactly the properties `id`, `text`, `done`, with
the supplied text and done flag and with the clock reading `Date.now()` as id;
so two fallback creations have different ids exactly when their clock readings
differ. -/
theorem createTodo_fallback (o : Outcome) (now : Int) (text : String) (done : Bool)
    (hfail : o.failed = true) :
    createTodo o.promise now [("text", JsVal.str text), ("done", JsVal.bool done)] =
      Except.ok (JsVal.obj
        [("id", JsVal.num now), ("text", JsVal.str text), ("done", JsVal.bool done)]) ∧
    (∀ (o2 : Outcome) (now2 : Int) (text2 : String) (done2 : Bool), o2.failed = true →
      ∃ r r2 : JsObj,
        createTodo o.promise now [("text", JsVal.str text), ("done", JsVal.bool done)] =
          Except.ok (JsVal.obj r) ∧
        createTodo o2.promise now2 [("text", JsVal.str text2), ("done", JsVal.bool done2)] =
          Except.ok (JsVal.obj r2) ∧
        keys r = ["id", "text", "done"] ∧ keys r2 = ["id", "text", "done"] ∧
        (getProp r "id" = getProp r2 "id" ↔ now = now2)) := by
  have h1 : ∀ (p : Outcome) (n : Int) (s : String) (d : Bool), p.failed = true →
      createTodo p.promise n [("text", JsVal.str s), ("done", JsVal.bool d)] =
        Except.ok (JsVal.obj
          [("id", JsVal.num n), ("text", JsVal.str s), ("done", JsVal.bool d)]) := by
    intro p n s d hp
    rw [createTodo_of_failed p n _ hp]
    rfl
  refine ⟨h1 o now text done hfail, ?_⟩
  intro o2 now2 text2 done2 hfail2
  refine ⟨_, _, h1 o now text done hfail, h1 o2 now2 text2 done2 hfail2, rfl, rfl, ?_⟩
  simp [getProp]

theorem createTodo_fallback_witness :
    createTodo (Outcome.notOk (Except.ok (JsVal.obj [("error", JsVal.str "Failed")]))).promise
        1700000000000 [("text", JsVal.str "New todo"), ("done", JsVal.bool false)] =
      Except.ok (JsVal.obj [("id", JsVal.num 1700000000000), ("text", JsVal.str "New todo"),
        ("done", JsVal.bool false)]) :=
  (createTodo_fallback (Outcome.notOk (Except.ok (JsVal.obj [("error", JsVal.str "Failed")])))
    1700000000000 "New todo" false rfl).1

end ToDo
